import Mathlib

/-!
Verification of the OPENCHAIN-IR pattern-detection, risk-scoring and
clustering engine: a shallow embedding of the relevant functions of
analyzer.py (detect_patterns, calculate_risk_score,
calculate_confidence_score) and advanced_analysis.py (AddressClustering and
AnomalyDetector), with theorems settling the specification claims.

Modelling conventions:
* Python floats are modelled by exact rationals; machine floating point
  rounding is not modelled.
* A transaction field that Python would read with dict.get and convert with
  float() is modelled by an optional raw value: an absent field defaults to
  0, a numeric field carries its value, and a non-numeric field makes
  float() raise, modelled as the Except error case.
* Timestamps are modelled as integers (seconds since epoch), as the data
  model prescribes.
* Python str.lower is modelled for ASCII data by pyLower; blockchain
  addresses are ASCII hex strings.
* Python sorted is a stable sort; it is modelled by a stable insertion
  sort, which agrees with every stable sort on an integer key.
-/

namespace OpenChainIR

/-- ASCII lower-casing of one character (the effect of Python str.lower on
the ASCII addresses this engine handles). -/
def lowerChar (c : Char) : Char :=
  if 65 ≤ c.toNat ∧ c.toNat ≤ 90 then Char.ofNat (c.toNat + 32) else c

/-- Python str.lower on ASCII strings. -/
def pyLower (s : String) : String := ⟨s.data.map lowerChar⟩

/-- A raw JSON field value as the engine receives it: numeric (an int or a
numeric string, both accepted by Python float()) or non-numeric text, on
which float() raises ValueError. -/
inductive Val where
  | num (q : ℚ)
  | nonNumeric
deriving DecidableEq

/-- A transaction record: the from/to/value/timeStamp fields plus the
optional gasPrice and isError fields used by anomaly feature extraction.
An Option field set to none models an absent key. -/
structure Tx where
  from_ : String
  to_ : String
  value : Option Val
  timeStamp : Int
  gasPrice : Option Val
  isError : Option String
deriving DecidableEq

/-- Python float(tx.get(field, 0)): an absent field defaults to 0, a
numeric field parses to its value, a non-numeric field raises. -/
def pyFloat (v : Option Val) : Except Unit ℚ :=
  match v with
  | none => .ok 0
  | some (.num q) => .ok q
  | some .nonNumeric => .error ()

/-- The parsed value with a default of 0, used in proofs about runs in
which no parse failure occurs. -/
def pyFloatD (v : Option Val) : ℚ := ((pyFloat v).toOption).getD 0

/-- The denomination factor 1e18 dividing raw values in analyzer.py. -/
def WEI : ℚ := 10 ^ 18

/-- Round a rational to the nearest integer, ties to the even integer
(the behaviour of Python round on exact values). -/
def roundHalfEven (x : ℚ) : ℤ :=
  let f := ⌊x⌋
  if x - f < 1/2 then f
  else if 1/2 < x - f then f + 1
  else if f % 2 = 0 then f else f + 1

/-- Python round(x, 6). -/
def round6 (x : ℚ) : ℚ := (roundHalfEven (x * 10 ^ 6) : ℚ) / 10 ^ 6

/-- Python round(x, 4). -/
def round4 (x : ℚ) : ℚ := (roundHalfEven (x * 10 ^ 4) : ℚ) / 10 ^ 4

/-- Insert a transaction into a list ordered by timestamp, after every
entry with a smaller or equal timestamp, preserving stability. -/
def insertByTimeStamp (x : Tx) : List Tx → List Tx
  | [] => [x]
  | y :: ys => if x.timeStamp < y.timeStamp then x :: y :: ys
               else y :: insertByTimeStamp x ys

/-- Stable ascending sort by timestamp: the model of Python
sorted(txlist, key=timestamp). -/
def sortByTimeStamp (l : List Tx) : List Tx :=
  l.foldl (fun acc x => insertByTimeStamp x acc) []

theorem length_insertByTimeStamp (x : Tx) (l : List Tx) :
    (insertByTimeStamp x l).length = l.length + 1 := by
  induction l with
  | nil => rfl
  | cons y ys ih =>
    unfold insertByTimeStamp
    split
    · simp
    · simp [ih]

theorem length_sortByTimeStamp_aux (l : List Tx) :
    ∀ acc : List Tx,
      (l.foldl (fun acc x => insertByTimeStamp x acc) acc).length =
        acc.length + l.length := by
  induction l with
  | nil => intro acc; simp
  | cons x xs ih =>
    intro acc
    simp only [List.foldl_cons]
    rw [ih, length_insertByTimeStamp, List.length_cons]
    omega

theorem length_sortByTimeStamp (l : List Tx) :
    (sortByTimeStamp l).length = l.length := by
  unfold sortByTimeStamp
  rw [length_sortByTimeStamp_aux]
  simp

/-! ## analyzer.py: detect_patterns -/

/-- The fixed-shape pattern record built by analyzer.detect_patterns. -/
structure PatternSet where
  rapid_succession : Bool
  round_amounts : List ℚ
  suspicious_destinations : List String
  dust_transactions : List ℚ
  high_frequency_wallet : Bool
  mixing_service_suspicion : Bool
  consolidation_pattern : Bool
  layering_pattern : Bool
deriving DecidableEq

/-- The all-false, all-empty record detect_patterns initialises and returns
unchanged on empty input. -/
def emptyPatterns : PatternSet :=
  { rapid_succession := false
    round_amounts := []
    suspicious_destinations := []
    dust_transactions := []
    high_frequency_wallet := false
    mixing_service_suspicion := false
    consolidation_pattern := false
    layering_pattern := false }

/-- The rapid-succession flag: sort by timestamp, take consecutive deltas,
flag when the deltas strictly between 0 and 60 seconds number more than
0.3 of all deltas; needs more than 2 transactions. -/
def rapid_flag (txlist : List Tx) : Bool :=
  let timestamps := (sortByTimeStamp txlist).map (fun tx => tx.timeStamp)
  if 2 < timestamps.length then
    let time_diffs := List.zipWith (fun a b => a - b) timestamps.tail timestamps
    let rapid_count := time_diffs.countP (fun d => decide (0 < d ∧ d < 60))
    decide ((time_diffs.length : ℚ) * (3/10) < (rapid_count : ℚ))
  else false

/-- The round-amounts list: normalized values that are positive and equal
to their integer part; a transaction whose value fails to parse is skipped
(the loop body catches the exception and passes). -/
def round_amounts_of (txlist : List Tx) : List ℚ :=
  txlist.filterMap (fun tx =>
    match pyFloat tx.value with
    | .ok q =>
      let val := q / WEI
      if 0 < val ∧ val = ((⌊val⌋ : ℤ) : ℚ) then some val else none
    | .error _ => none)

/-- The dust check for one transaction: a normalized value strictly
between 0 and 0.01 yields the value rounded to 6 decimal places; a parse
failure is skipped (the loop body catches the exception and passes). -/
def dustStep (tx : Tx) : Option ℚ :=
  match pyFloat tx.value with
  | .ok q =>
    let val := q / WEI
    if 0 < val ∧ val < 1/100 then some (round6 val) else none
  | .error _ => none

/-- The dust-transactions list built by the dust loop of detect_patterns. -/
def dust_transactions_of (txlist : List Tx) : List ℚ :=
  txlist.filterMap dustStep

/-- analyzer.detect_patterns.  The two consolidation-pattern list
comprehensions parse the value of every transaction whose to or from
address matches the root; a non-numeric value there raises ValueError out
of the function, modelled by the error case.  The round-amount and dust
loops have their own try/except and skip bad values instead. -/
def detect_patterns (txlist : List Tx) (root_address : String) :
    Except Unit PatternSet :=
  if txlist = [] then .ok emptyPatterns
  else
    let incoming := txlist.countP (fun tx => decide (pyLower tx.to_ = pyLower root_address))
    let outgoing := txlist.countP (fun tx => decide (pyLower tx.from_ = pyLower root_address))
    match (txlist.filter (fun tx => decide (pyLower tx.to_ = pyLower root_address))).mapM
            (fun tx => Except.map (fun q => q / WEI) (pyFloat tx.value)),
          (txlist.filter (fun tx => decide (pyLower tx.from_ = pyLower root_address))).mapM
            (fun tx => Except.map (fun q => q / WEI) (pyFloat tx.value)) with
    | .ok input_amounts, .ok output_amounts =>
      .ok { rapid_succession := rapid_flag txlist
            round_amounts := round_amounts_of txlist
            suspicious_destinations := []
            dust_transactions := dust_transactions_of txlist
            high_frequency_wallet := decide (50 < txlist.length)
            mixing_service_suspicion := decide (outgoing * 2 < incoming)
            consolidation_pattern :=
              if input_amounts ≠ [] ∧ output_amounts ≠ [] then
                let avg_input :=
                  if input_amounts ≠ [] then input_amounts.sum / (input_amounts.length : ℚ)
                  else 0
                let max_output := (output_amounts.max?).getD 0
                decide (0 < avg_input ∧ avg_input * 10 < max_output)
              else false
            layering_pattern :=
              decide (20 < txlist.length ∧
                (txlist.map (fun tx => tx.to_)).dedup.length <
                  (txlist.map (fun tx => tx.from_)).dedup.length) }
    | .error e, _ => .error e
    | .ok _, .error e => .error e

/-! ## analyzer.py: risk and confidence scoring -/

/-- The summary fields calculate_risk_score and calculate_confidence_score
read (with a default of 0 for an absent key). -/
structure Summary where
  total_transactions : ℕ
  unique_senders : ℕ
  unique_receivers : ℕ
deriving DecidableEq

/-- analyzer.calculate_risk_score: sequential accumulation of points and
factor strings, capped at 100 at the end. -/
def calculate_risk_score (patterns : PatternSet) (summary : Summary) :
    ℕ × List String :=
  let acc0 : ℕ × List String := (0, [])
  let acc1 := if patterns.rapid_succession
    then (acc0.1 + 20, acc0.2 ++ ["Rapid succession of transactions"]) else acc0
  let acc2 := if patterns.high_frequency_wallet
    then (acc1.1 + 15, acc1.2 ++ ["High frequency transaction wallet"]) else acc1
  let acc3 := if patterns.mixing_service_suspicion
    then (acc2.1 + 25, acc2.2 ++ ["Possible mixing service behavior"]) else acc2
  let acc4 := if patterns.consolidation_pattern
    then (acc3.1 + 20, acc3.2 ++ ["Consolidation pattern detected"]) else acc3
  let acc5 := if patterns.layering_pattern
    then (acc4.1 + 18, acc4.2 ++ ["Layering pattern detected (AML concern)"]) else acc4
  let acc6 := if 5 < patterns.dust_transactions.length
    then (acc5.1 + 15, acc5.2 ++ ["Multiple dust transactions (potential obfuscation)"]) else acc5
  let acc7 := if 0 < summary.total_transactions ∧
      (summary.total_transactions : ℚ) * (3/10) < (patterns.round_amounts.length : ℚ)
    then (acc6.1 + 10, acc6.2 ++ ["High proportion of round amount transactions"]) else acc6
  (min acc7.1 100, acc7.2)

/-- analyzer.calculate_confidence_score: base 50, data-volume and
party-diversity increments, 3 points per boolean pattern capped at 20,
total capped at 100.  The risk_score argument is accepted and unused, as
in the source. -/
def calculate_confidence_score (summary : Summary) (patterns : PatternSet)
    (risk_score : ℕ) : ℕ :=
  let confidence : ℕ := 50
  let confidence := if 100 < summary.total_transactions then confidence + 20
    else if 50 < summary.total_transactions then confidence + 10 else confidence
  let unique_parties := summary.unique_senders + summary.unique_receivers
  let confidence := if 30 < unique_parties then confidence + 15
    else if 15 < unique_parties then confidence + 8 else confidence
  let pattern_count :=
    [patterns.rapid_succession, patterns.high_frequency_wallet,
     patterns.mixing_service_suspicion, patterns.consolidation_pattern,
     patterns.layering_pattern].countP id
  let confidence := confidence + min (pattern_count * 3) 20
  min confidence 100

/-! ## Claim C1 -/

set_option maxHeartbeats 2000000 in
/-- C1: calculate_risk_score returns exactly min of the sum of the seven
independent contributions (20, 15, 25, 20, 18, 15, 10 points) and 100,
and the factor strings of the triggered conditions in table order. -/
theorem risk_score_additive (patterns : PatternSet) (summary : Summary) :
    calculate_risk_score patterns summary =
      (min ((if patterns.rapid_succession then 20 else 0) +
            (if patterns.high_frequency_wallet then 15 else 0) +
            (if patterns.mixing_service_suspicion then 25 else 0) +
            (if patterns.consolidation_pattern then 20 else 0) +
            (if patterns.layering_pattern then 18 else 0) +
            (if 5 < patterns.dust_transactions.length then 15 else 0) +
            (if 0 < summary.total_transactions ∧
                (summary.total_transactions : ℚ) * (3/10) <
                  (patterns.round_amounts.length : ℚ) then 10 else 0)) 100,
       (if patterns.rapid_succession then ["Rapid succession of transactions"] else []) ++
       (if patterns.high_frequency_wallet then ["High frequency transaction wallet"] else []) ++
       (if patterns.mixing_service_suspicion then ["Possible mixing service behavior"] else []) ++
       (if patterns.consolidation_pattern then ["Consolidation pattern detected"] else []) ++
       (if patterns.layering_pattern then ["Layering pattern detected (AML concern)"] else []) ++
       (if 5 < patterns.dust_transactions.length
          then ["Multiple dust transactions (potential obfuscation)"] else []) ++
       (if 0 < summary.total_transactions ∧
           (summary.total_transactions : ℚ) * (3/10) <
             (patterns.round_amounts.length : ℚ)
          then ["High proportion of round amount transactions"] else [])) := by
  simp only [calculate_risk_score]
  split_ifs <;> rfl

/-! ## Claim C10 -/

/-- C10: the confidence score always lies between 50 and 100 inclusive,
and the empty transaction batch (total 0, no parties, the all-false
pattern record detect_patterns returns for it) scores exactly 50. -/
theorem confidence_bounds :
    (∀ (summary : Summary) (patterns : PatternSet) (risk_score : ℕ),
      50 ≤ calculate_confidence_score summary patterns risk_score ∧
      calculate_confidence_score summary patterns risk_score ≤ 100) ∧
    (∀ (root_address : String) (risk_score : ℕ),
      (detect_patterns [] root_address).map
        (fun p => calculate_confidence_score ⟨0, 0, 0⟩ p risk_score) =
          .ok 50) := by
  constructor
  · intro summary patterns risk_score
    simp only [calculate_confidence_score]
    split_ifs <;> constructor <;> omega
  · intro root_address risk_score
    rfl

/-! ## Claim C6 -/

theorem rapid_flag_iff (txlist : List Tx) :
    rapid_flag txlist = true ↔
      3 ≤ txlist.length ∧
      (3/10 : ℚ) * ((txlist.length : ℚ) - 1) <
        ((List.zipWith (fun a b => a - b)
            ((sortByTimeStamp txlist).map (fun tx => tx.timeStamp)).tail
            ((sortByTimeStamp txlist).map (fun tx => tx.timeStamp))).countP
          (fun d => decide (0 < d ∧ d < 60)) : ℚ) := by
  have hlen : ((sortByTimeStamp txlist).map (fun tx => tx.timeStamp)).length
      = txlist.length := by
    rw [List.length_map, length_sortByTimeStamp]
  have hdlen : (List.zipWith (fun a b => a - b)
      ((sortByTimeStamp txlist).map (fun tx => tx.timeStamp)).tail
      ((sortByTimeStamp txlist).map (fun tx => tx.timeStamp))).length
      = txlist.length - 1 := by
    rw [List.length_zipWith, List.length_tail, hlen]
    omega
  simp only [rapid_flag]
  by_cases h2 : 2 < ((sortByTimeStamp txlist).map (fun tx => tx.timeStamp)).length
  · rw [if_pos h2]
    rw [hlen] at h2
    simp only [decide_eq_true_eq, hdlen]
    constructor
    · intro hc
      refine ⟨by omega, ?_⟩
      rw [Nat.cast_sub (by omega : 1 ≤ txlist.length), Nat.cast_one] at hc
      linarith
    · rintro ⟨h3, hc⟩
      rw [Nat.cast_sub (by omega : 1 ≤ txlist.length), Nat.cast_one]
      linarith
  · rw [if_neg h2]
    rw [hlen] at h2
    constructor
    · intro hab
      exact absurd hab (by simp)
    · rintro ⟨h3, _⟩
      omega

/-- C6: the rapid_succession flag is true iff there are at least 3
transactions and, over the timestamp-sorted list, the consecutive deltas
strictly between 0 and 60 seconds number more than 0.3 times all deltas;
with fewer than 3 transactions it is false. -/
theorem rapid_succession_iff (txlist : List Tx) (root_address : String)
    (p : PatternSet) (h : detect_patterns txlist root_address = .ok p) :
    p.rapid_succession = true ↔
      3 ≤ txlist.length ∧
      (3/10 : ℚ) * ((txlist.length : ℚ) - 1) <
        ((List.zipWith (fun a b => a - b)
            ((sortByTimeStamp txlist).map (fun tx => tx.timeStamp)).tail
            ((sortByTimeStamp txlist).map (fun tx => tx.timeStamp))).countP
          (fun d => decide (0 < d ∧ d < 60)) : ℚ) := by
  unfold detect_patterns at h
  split at h
  · rename_i hnil
    subst hnil
    injection h with h2
    subst h2
    simp [emptyPatterns]
  · split at h
    · injection h with h2
      subst h2
      exact rapid_flag_iff txlist
    · exact Except.noConfusion h
    · exact Except.noConfusion h

def w6txs : List Tx :=
  [⟨"0xa", "0xb", none, 0, none, none⟩, ⟨"0xa", "0xb", none, 10, none, none⟩,
   ⟨"0xa", "0xb", none, 20, none, none⟩, ⟨"0xa", "0xb", none, 1000, none, none⟩]

def w6pat : PatternSet := ⟨true, [], [], [], false, false, false, false⟩

/-- Witness for C6 at a concrete batch of four transactions with deltas
10, 10 and 980 seconds: two of three deltas are rapid, so the flag is on. -/
theorem rapid_succession_iff_witness :
    w6pat.rapid_succession = true ↔
      3 ≤ w6txs.length ∧
      (3/10 : ℚ) * ((w6txs.length : ℚ) - 1) <
        ((List.zipWith (fun a b => a - b)
            ((sortByTimeStamp w6txs).map (fun tx => tx.timeStamp)).tail
            ((sortByTimeStamp w6txs).map (fun tx => tx.timeStamp))).countP
          (fun d => decide (0 < d ∧ d < 60)) : ℚ) :=
  rapid_succession_iff w6txs "0xr" w6pat (by with_unfolding_all rfl)

/-! ## Claim C7 -/

theorem normalized_dust_iff (q : ℚ) :
    (0 < q / WEI ∧ q / WEI < 1/100) ↔ (0 < q ∧ q < WEI / 100) := by
  have hW : (0:ℚ) < WEI := by norm_num [WEI]
  rw [lt_div_iff₀ hW, zero_mul, div_lt_iff₀ hW]
  constructor
  · rintro ⟨h1, h2⟩
    exact ⟨h1, by linarith⟩
  · rintro ⟨h1, h2⟩
    exact ⟨h1, by linarith⟩

theorem dustStep_err {tx : Tx} (hv : pyFloat tx.value = .error ()) :
    dustStep tx = none := by
  unfold dustStep
  rw [hv]

theorem dustStep_ok {tx : Tx} {q : ℚ} (hv : pyFloat tx.value = .ok q) :
    dustStep tx =
      if 0 < q / WEI ∧ q / WEI < 1/100 then some (round6 (q / WEI)) else none := by
  unfold dustStep
  rw [hv]

theorem dust_count (txlist : List Tx) :
    (dust_transactions_of txlist).length =
      (txlist.filterMap (fun tx => (pyFloat tx.value).toOption)).countP
        (fun q => decide (0 < q ∧ q < WEI / 100)) := by
  induction txlist with
  | nil => rfl
  | cons tx txs ih =>
    unfold dust_transactions_of at ih ⊢
    cases hv : pyFloat tx.value with
    | error e =>
      cases e
      rw [List.filterMap_cons_none (by rw [dustStep_err hv]),
          List.filterMap_cons_none
            (by show (pyFloat tx.value).toOption = none; rw [hv]; rfl)]
      exact ih
    | ok q =>
      by_cases hq : 0 < q / WEI ∧ q / WEI < 1/100
      · rw [List.filterMap_cons_some (by rw [dustStep_ok hv]; exact if_pos hq),
            List.filterMap_cons_some
              (by show (pyFloat tx.value).toOption = some q; rw [hv]; rfl),
            List.length_cons, ih, List.countP_cons]
        have hq2 : 0 < q ∧ q < WEI / 100 := (normalized_dust_iff q).mp hq
        simp [hq2]
      · rw [List.filterMap_cons_none (by rw [dustStep_ok hv]; exact if_neg hq),
            List.filterMap_cons_some
              (by show (pyFloat tx.value).toOption = some q; rw [hv]; rfl),
            ih, List.countP_cons]
        have hq2 : ¬ (0 < q ∧ q < WEI / 100) :=
          fun hc => hq ((normalized_dust_iff q).mpr hc)
        simp [hq2]

/-- C7: a transaction lands in dust_transactions iff its parsed value is
strictly between 0 and 0.01 once normalized, that is, iff the raw value q
satisfies 0 < q < WEI/100 strictly; in particular a normalized value of
exactly 0.01 is not dust while 0.0099999 is (see the witness, which runs
both boundary inputs). -/
theorem dust_threshold_strict (txlist : List Tx) (root_address : String)
    (p : PatternSet) (h : detect_patterns txlist root_address = .ok p) :
    p.dust_transactions.length =
      (txlist.filterMap (fun tx => (pyFloat tx.value).toOption)).countP
        (fun q => decide (0 < q ∧ q < WEI / 100)) := by
  unfold detect_patterns at h
  split at h
  · rename_i hnil
    subst hnil
    injection h with h2
    subst h2
    rfl
  · split at h
    · injection h with h2
      subst h2
      exact dust_count txlist
    · exact Except.noConfusion h
    · exact Except.noConfusion h

def w7txs : List Tx :=
  [⟨"0xa", "0xb", some (.num (10 ^ 16)), 0, none, none⟩,
   ⟨"0xa", "0xb", some (.num (99999 * 10 ^ 11)), 5, none, none⟩]

def w7pat : PatternSet := ⟨false, [], [], [1/100], false, false, false, false⟩

/-- Witness for C7 at the two boundary inputs of the claim: a raw value of
1e16 (normalized exactly 0.01) is not recorded as dust, a raw value of
0.0099999e18 is, so exactly one dust entry results. -/
theorem dust_threshold_strict_witness :
    w7pat.dust_transactions.length =
      (w7txs.filterMap (fun tx => (pyFloat tx.value).toOption)).countP
        (fun q => decide (0 < q ∧ q < WEI / 100)) :=
  dust_threshold_strict w7txs "0xr" w7pat (by with_unfolding_all rfl)

/-! ## Claim C8 -/

/-- The layering condition as the claim states it, with case-insensitive
distinct-address counts (both address lists lower-cased before
deduplication); kept beside the implementation for comparison. -/
def layeringSpecInsensitive (txlist : List Tx) : Bool :=
  decide (20 < txlist.length ∧
    (txlist.map (fun tx => pyLower tx.to_)).dedup.length <
      (txlist.map (fun tx => pyLower tx.from_)).dedup.length)

def cex21 : List Tx :=
  List.replicate 7 ⟨"0xA", "0xc", none, 0, none, none⟩ ++
  List.replicate 7 ⟨"0xa", "0xd", none, 0, none, none⟩ ++
  List.replicate 7 ⟨"0xB", "0xc", none, 0, none, none⟩

/-- C8 counterexample: on 21 transactions whose senders are 0xA, 0xa and
0xB (two of them equal up to letter case) and whose recipients are 0xc and
0xd, the implementation sets layering_pattern, yet under the claimed
case-insensitive counting the sender and recipient counts are both 2 and
the flag would be off.  The distinct-address counts of the layering check
are therefore case-sensitive, refuting the claim. -/
theorem layering_insensitive_cex :
    (detect_patterns cex21 "0xz").map (fun p => p.layering_pattern) = .ok true ∧
    layeringSpecInsensitive cex21 = false :=
  ⟨by with_unfolding_all rfl, by with_unfolding_all rfl⟩

/-- C8 as amended: the layering flag is set iff there are more than 20
transactions and the number of distinct from-addresses exceeds the number
of distinct to-addresses, both counted case-sensitively (the raw address
strings, no lower-casing). -/
theorem layering_case_sensitive (txlist : List Tx) (root_address : String)
    (p : PatternSet) (h : detect_patterns txlist root_address = .ok p) :
    p.layering_pattern = true ↔
      20 < txlist.length ∧
      (txlist.map (fun tx => tx.to_)).toFinset.card <
        (txlist.map (fun tx => tx.from_)).toFinset.card := by
  unfold detect_patterns at h
  split at h
  · rename_i hnil
    subst hnil
    injection h with h2
    subst h2
    simp [emptyPatterns]
  · split at h
    · injection h with h2
      subst h2
      simp only [decide_eq_true_eq, List.card_toFinset]
    · exact Except.noConfusion h
    · exact Except.noConfusion h

def cexPat : PatternSet := ⟨false, [], [], [], false, false, false, true⟩

/-- Witness for the amended C8 at the 21-transaction batch of the
counterexample: the flag is on and the case-sensitive counts are 3
senders against 2 recipients. -/
theorem layering_case_sensitive_witness :
    cexPat.layering_pattern = true ↔
      20 < cex21.length ∧
      (cex21.map (fun tx => tx.to_)).toFinset.card <
        (cex21.map (fun tx => tx.from_)).toFinset.card :=
  layering_case_sensitive cex21 "0xz" cexPat (by with_unfolding_all rfl)

/-! ## advanced_analysis.py: AddressClustering -/

/-- defaultdict-style grouping: append b to the list stored under k,
creating the entry at the end (insertion order) when k is new. -/
def addToGroup {α β : Type} [DecidableEq α] :
    List (α × List β) → α → β → List (α × List β)
  | [], k, b => [(k, [b])]
  | (k', bs) :: rest, k, b =>
    if k' = k then (k', bs ++ [b]) :: rest
    else (k', bs) :: addToGroup rest k b

/-- The list stored under a key (empty for an absent key). -/
def groupLookup {α β : Type} [DecidableEq α] :
    List (α × List β) → α → List β
  | [], _ => []
  | (k', bs) :: rest, k => if k' = k then bs else groupLookup rest k

/-- A dust-attack finding of AddressClustering._find_dust_attacks. -/
structure DustFinding where
  address : String
  pattern : String
  risk_score : ℚ
  is_suspicious : Bool
deriving DecidableEq

/-- The grouping loop body of _find_dust_attacks: a transaction sent by
the main address has its value parsed with float() (which raises on a
non-numeric value) and appended under the lower-cased recipient; other
transactions leave the grouping unchanged. -/
def dustStepM (main : String) (m : List (String × List ℚ)) (tx : Tx) :
    Except Unit (List (String × List ℚ)) :=
  if pyLower tx.from_ = main then do
    let amount ← pyFloat tx.value
    pure (addToGroup m (pyLower tx.to_) amount)
  else pure m

/-- AddressClustering._find_dust_attacks: group the values of transactions
sent by the (lower-cased) main address by lower-cased recipient, flag every
recipient with at least one amount below 0.1, and cap at 20 findings.  The
raw value is compared against the 0.1 threshold directly, with no
denomination division. -/
def find_dust_attacks (transactions : List Tx) (main_address : String) :
    Except Unit (List DustFinding) := do
  let main := pyLower main_address
  let outgoing ← transactions.foldlM (dustStepM main) []
  let dust_recipients :=
    (outgoing.filter (fun p => p.2.any (fun amt => decide (amt < 1/10)))).map
      (fun p => p.1)
  pure ((dust_recipients.take 20).map (fun addr =>
    { address := addr, pattern := "dust_attack", risk_score := 7/10,
      is_suspicious := true }))

/-- A timing-cluster finding of AddressClustering._find_timing_clusters. -/
structure TimingFinding where
  cluster_size : ℕ
  time_range : String
  pattern : String
  risk_score : ℚ
  is_suspicious : Bool
deriving DecidableEq

/-- AddressClustering._find_timing_clusters: sort by timestamp, grow the
current cluster while the gap to its last transaction is at most 300
seconds, and record a terminated cluster only when it has at least 5
members.  The cluster still growing when the loop ends is never recorded,
exactly as in the source. -/
def find_timing_clusters (transactions : List Tx) : List TimingFinding :=
  match sortByTimeStamp transactions with
  | [] => []
  | t0 :: rest =>
    let step : List (List Tx) × List Tx → Tx → List (List Tx) × List Tx :=
      fun acc tx =>
        let prev_time := ((acc.2.getLast?).map (fun t => t.timeStamp)).getD 0
        let curr_time := tx.timeStamp
        if curr_time - prev_time ≤ 300 then (acc.1, acc.2 ++ [tx])
        else if 5 ≤ acc.2.length then (acc.1 ++ [acc.2], [tx])
        else (acc.1, [tx])
    let clusters := (rest.foldl step ([], [t0])).1
    clusters.map (fun c =>
      { cluster_size := c.length
        time_range :=
          toString (((c.head?).map (fun t => t.timeStamp)).getD 0) ++ " - " ++
            toString (((c.getLast?).map (fun t => t.timeStamp)).getD 0)
        pattern := "timing_cluster"
        risk_score := min ((1:ℚ)/2 + (c.length : ℚ) * (5/100)) (95/100)
        is_suspicious := decide (10 < c.length) })

/-- An amount-splitting finding of AddressClustering._find_amount_patterns. -/
structure AmountFinding where
  amount : ℚ
  recipient_count : ℕ
  pattern : String
  risk_score : ℚ
  is_suspicious : Bool
deriving DecidableEq

/-- AddressClustering._find_amount_patterns: group transactions of positive
value by their value rounded to 4 decimal places; report every amount
carried by at least 3 transactions to at least 3 distinct recipients,
capped at 10.  float() on a non-numeric value raises, modelled by the
error case. -/
def find_amount_patterns (transactions : List Tx) :
    Except Unit (List AmountFinding) := do
  let amounts ← transactions.foldlM
    (fun (m : List (ℚ × List Tx)) tx => do
      let amount ← pyFloat tx.value
      if 0 < amount then pure (addToGroup m (round4 amount) tx) else pure m) []
  let patterns := amounts.filterMap (fun p =>
    if 3 ≤ p.2.length then
      let recipients := (p.2.map (fun tx => tx.to_)).dedup
      if 3 ≤ recipients.length then
        some { amount := p.1, recipient_count := recipients.length,
               pattern := "amount_splitting", risk_score := 6/10,
               is_suspicious := true }
      else none
    else none)
  pure (patterns.take 10)

/-! ## advanced_analysis.py: AnomalyDetector -/

/-- AnomalyDetector.extract_features: the 5-dimensional feature vector
[amount, gas price, is-contract proxy, hour of day, day of week] for every
transaction, paired with the transaction list.  float() on a non-numeric
value or gas price raises, modelled by the error case. -/
def extract_features (transactions : List Tx) :
    Except Unit (List (List ℚ) × List Tx) := do
  let features ← transactions.mapM (fun tx => do
    let amount ← pyFloat tx.value
    let timestamp := tx.timeStamp
    let gas_price ← pyFloat tx.gasPrice
    let is_contract : ℚ := if tx.isError.getD "0" = "0" then 1 else 0
    let hour_of_day : ℤ := (timestamp % 86400) / 3600
    let day_of_week : ℤ := (timestamp / 86400) % 7
    pure [amount, gas_price, is_contract, (hour_of_day : ℚ), (day_of_week : ℚ)])
  pure (features, transactions)

/-- An anomaly record of AnomalyDetector.detect_anomalies. -/
structure AnomalyRecord where
  hash : String
  from_ : String
  to_ : String
  amount : ℚ
  timestamp : Int
  anomaly_score : ℚ
  reasons : List String
  is_suspicious : Bool
deriving DecidableEq

/-- AnomalyDetector.detect_anomalies: fewer than 10 transactions return
the empty list at once; otherwise the features are extracted and handed to
the Isolation-Forest fit/score/collect step.  That step is scikit-learn
library code outside this repository, so it is abstracted here as the
model argument; every claim settled against this definition holds for an
arbitrary model. -/
def detect_anomalies
    (model : List (List ℚ) → List Tx → ℚ → Except Unit (List AnomalyRecord))
    (transactions : List Tx) (contamination : ℚ) :
    Except Unit (List AnomalyRecord) :=
  if transactions.length < 10 then .ok []
  else do
    let (features, tx_list) ← extract_features transactions
    if features.length = 0 then .ok []
    else model features tx_list contamination

/-! ## Claim C9 -/

/-- C9: with fewer than 10 transactions, anomaly detection returns the
empty list as a normal result regardless of the transactions themselves
and of the outlier model. -/
theorem anomaly_floor
    (model : List (List ℚ) → List Tx → ℚ → Except Unit (List AnomalyRecord))
    (transactions : List Tx) (contamination : ℚ)
    (h : transactions.length < 10) :
    detect_anomalies model transactions contamination = .ok [] := by
  unfold detect_anomalies
  rw [if_pos h]

def nineTxs : List Tx :=
  List.replicate 9 ⟨"0xa", "0xb", some (.num 1), 0, none, none⟩

/-- Witness for C9: nine transactions with an always-failing model still
yield the empty list. -/
theorem anomaly_floor_witness :
    detect_anomalies (fun _ _ _ => .error ()) nineTxs (1/10) = .ok [] :=
  anomaly_floor (fun _ _ _ => .error ()) nineTxs (1/10) (by decide)

/-! ## Claim C2 -/

def badValueTx : Tx := ⟨"0xroot", "0xa", some .nonNumeric, 0, none, none⟩

/-- C2 is a code bug: a transaction whose value field is non-numeric makes
dust-attack clustering, amount clustering, anomaly feature extraction and
even pattern detection (through its consolidation comprehensions, here
with the transaction sent by the root) raise a ValueError instead of
substituting 0.0; nothing recovers inside these functions. -/
theorem malformed_value_raises :
    find_dust_attacks [badValueTx] "0xroot" = .error () ∧
    find_amount_patterns [badValueTx] = .error () ∧
    extract_features [badValueTx] = .error () ∧
    detect_patterns [badValueTx] "0xroot" = .error () :=
  ⟨by with_unfolding_all rfl, by with_unfolding_all rfl,
   by with_unfolding_all rfl, by with_unfolding_all rfl⟩

/-! ## Claim C4 -/

def burstTx (t : Int) : Tx := ⟨"0xa", "0xb", some (.num 1), t, none, none⟩

/-- C4 is a code bug: five transactions 60 seconds apart form one maximal
run with every gap at most 300 seconds and size 5, which the claim says is
reported (risk 0.75), but the implementation never finalizes the cluster
that is still growing when the loop ends, so it returns no findings. -/
theorem timing_trailing_run_dropped :
    find_timing_clusters
      [burstTx 0, burstTx 60, burstTx 120, burstTx 180, burstTx 240] = [] := by
  with_unfolding_all rfl

/-! ## Claim C5 -/

/-- A circular-pattern finding of AddressClustering._find_circular_patterns. -/
structure CircFinding where
  path : List String
  pattern : String
  risk_score : ℚ
  is_suspicious : Bool
deriving DecidableEq

/-- graph.get(current, set()): the neighbour list of a node, empty when
absent. -/
def neighborsOf (graph : List (String × List String)) (a : String) :
    List String :=
  (graph.lookup a).getD []

/-- The neighbour loop of find_paths: record path + [target] and stop when
a neighbour closes the cycle with a path of length at least 2; skip
visited neighbours; otherwise descend with the neighbour pushed on the
path and the visited set (backtracking restores the set, so the
continuation keeps the caller's visited). -/
def goNeighbors (target : String)
    (descend : String → List String → List String → List CircFinding)
    (current : String) (path visited : List String) :
    List String → List CircFinding
  | [] => []
  | neighbor :: ns =>
    if neighbor = target ∧ 2 ≤ path.length then
      [{ path := path ++ [target], pattern := "circular", risk_score := 8/10,
         is_suspicious := true }]
    else if neighbor ∈ visited then
      goNeighbors target descend current path visited ns
    else
      descend neighbor (path ++ [current]) (neighbor :: visited) ++
        goNeighbors target descend current path visited ns

/-- The depth-limited DFS of _find_circular_patterns.  A call at Python
depth d has fuel max_depth + 1 - d, so fuel 0 is the aborted call with
depth > max_depth. -/
def find_paths (graph : List (String × List String)) (target : String) :
    ℕ → String → List String → List String → List CircFinding
  | 0, _, _, _ => []
  | fuel + 1, current, path, visited =>
    goNeighbors target (fun n p v => find_paths graph target fuel n p v)
      current path visited (neighborsOf graph current)

/-- AddressClustering._find_circular_patterns: DFS from the lower-cased
start address with the start pre-visited, capped at 10 findings. -/
def find_circular_patterns (graph : List (String × List String))
    (start_address : String) (max_depth : ℕ) : List CircFinding :=
  let start := pyLower start_address
  (find_paths graph start max_depth start [] [start]).take 10

/-- The invariant claimed of every finding: the path starts and ends at
the target, has at least 3 nodes, and its intermediate nodes are pairwise
distinct and never the target; the constant fields are as recorded. -/
def GoodCirc (target : String) (f : CircFinding) : Prop :=
  f.path.head? = some target ∧ f.path.getLast? = some target ∧
  3 ≤ f.path.length ∧ f.path.tail.dropLast.Nodup ∧
  target ∉ f.path.tail.dropLast ∧
  f.pattern = "circular" ∧ f.risk_score = 8/10 ∧ f.is_suspicious = true

theorem nodupConcat {l : List String} {a : String} (h : l.Nodup)
    (ha : a ∉ l) : (l ++ [a]).Nodup := by
  rw [List.nodup_append]
  refine ⟨h, List.nodup_singleton a, ?_⟩
  intro x hx hxa
  rw [List.mem_singleton] at hxa
  subst hxa
  exact ha hx

theorem goNeighbors_good (target : String)
    (descend : String → List String → List String → List CircFinding)
    (current : String) (path visited : List String)
    (hnd : (path ++ [current]).Nodup)
    (hsub : ∀ x ∈ path ++ [current], x ∈ visited)
    (hnil : path = [] → current = target)
    (hhead : ∀ a, path.head? = some a → a = target)
    (hdesc : ∀ n, n ∉ visited →
      ∀ f ∈ descend n (path ++ [current]) (n :: visited), GoodCirc target f) :
    ∀ ns, ∀ f ∈ goNeighbors target descend current path visited ns,
      GoodCirc target f := by
  intro ns
  induction ns with
  | nil => intro f hf; simp [goNeighbors] at hf
  | cons n ns ih =>
    intro f hf
    simp only [goNeighbors] at hf
    split at hf
    · rename_i hcond
      obtain ⟨hn, hlen⟩ := hcond
      rw [List.mem_singleton] at hf
      subst hf
      obtain ⟨p0, pt, rfl⟩ : ∃ p0 pt, path = p0 :: pt := by
        cases path with
        | nil => simp at hlen
        | cons a l => exact ⟨a, l, rfl⟩
      have hp0 : target = p0 := (hhead p0 rfl).symm
      subst hp0
      have hpn : (target :: pt).Nodup :=
        List.Nodup.sublist (List.sublist_append_left (target :: pt) [current]) hnd
      have htl : ((target :: pt) ++ [target]).tail.dropLast = pt := by
        rw [List.cons_append, List.tail_cons, List.dropLast_concat]
      refine ⟨by simp, ?_, ?_, ?_, ?_, rfl, rfl, rfl⟩
      · show ((target :: pt) ++ [target]).getLast? = some target
        rw [List.getLast?_concat]
      · show 3 ≤ ((target :: pt) ++ [target]).length
        rw [List.length_append, List.length_cons, List.length_singleton]
        rw [List.length_cons] at hlen
        omega
      · show ((target :: pt) ++ [target]).tail.dropLast.Nodup
        rw [htl]
        exact (List.nodup_cons.mp hpn).2
      · show target ∉ ((target :: pt) ++ [target]).tail.dropLast
        rw [htl]
        exact (List.nodup_cons.mp hpn).1
    · split at hf
      · exact ih f hf
      · rename_i hvis
        rw [List.mem_append] at hf
        cases hf with
        | inl hf => exact hdesc n hvis f hf
        | inr hf => exact ih f hf

theorem find_paths_good (graph : List (String × List String))
    (target : String) :
    ∀ (fuel : ℕ) (current : String) (path visited : List String),
      (path ++ [current]).Nodup →
      (∀ x ∈ path ++ [current], x ∈ visited) →
      (path = [] → current = target) →
      (∀ a, path.head? = some a → a = target) →
      ∀ f ∈ find_paths graph target fuel current path visited,
        GoodCirc target f := by
  intro fuel
  induction fuel with
  | zero =>
    intro current path visited _ _ _ _ f hf
    simp [find_paths] at hf
  | succ fuel ih =>
    intro current path visited hnd hsub hnil hhead f hf
    simp only [find_paths] at hf
    refine goNeighbors_good target _ current path visited hnd hsub hnil hhead
      ?_ _ f hf
    intro n hn g hg
    refine ih n (path ++ [current]) (n :: visited) ?_ ?_ ?_ ?_ g hg
    · exact nodupConcat hnd (fun hm => hn (hsub n hm))
    · intro x hx
      rw [List.mem_append] at hx
      cases hx with
      | inl hx => exact List.mem_cons_of_mem _ (hsub x hx)
      | inr hx =>
        rw [List.mem_singleton] at hx
        subst hx
        exact List.mem_cons_self _ _
    · intro habs
      exact absurd habs (by simp)
    · intro a ha
      cases path with
      | nil =>
        rw [List.nil_append, List.head?_cons] at ha
        injection ha with ha
        subst ha
        exact hnil rfl
      | cons p0 pt =>
        rw [List.cons_append, List.head?_cons] at ha
        injection ha with ha
        subst ha
        exact hhead p0 rfl

/-- C5: every finding of the circular-pattern finder has a path beginning
and ending at the (lower-cased) start address, with at least 3 nodes,
pairwise-distinct intermediate nodes none of which is the start address,
pattern circular, risk score 0.8 and is_suspicious true; and at most 10
findings are returned. -/
theorem circular_patterns_sound (graph : List (String × List String))
    (start_address : String) (max_depth : ℕ) :
    (find_circular_patterns graph start_address max_depth).length ≤ 10 ∧
    ∀ f ∈ find_circular_patterns graph start_address max_depth,
      f.path.head? = some (pyLower start_address) ∧
      f.path.getLast? = some (pyLower start_address) ∧
      3 ≤ f.path.length ∧
      f.path.tail.dropLast.Nodup ∧
      pyLower start_address ∉ f.path.tail.dropLast ∧
      f.pattern = "circular" ∧ f.risk_score = 8/10 ∧ f.is_suspicious = true := by
  constructor
  · exact List.length_take_le 10 _
  · intro f hf
    have hf2 : f ∈ find_paths graph (pyLower start_address) max_depth
        (pyLower start_address) [] [pyLower start_address] :=
      List.mem_of_mem_take hf
    exact find_paths_good graph (pyLower start_address) max_depth
      (pyLower start_address) [] [pyLower start_address]
      (by simp) (by simp) (fun _ => rfl) (by intro a ha; simp at ha) f hf2

def circGraph : List (String × List String) :=
  [("a", ["b", "c"]), ("b", ["c", "a"]), ("c", ["a", "b"])]

/-- Witness for C5 on a concrete triangle graph: the finder returns the
finding with path a-b-a (among others), and the invariant theorem applies
to it. -/
theorem circular_patterns_sound_witness :
    3 ≤ (CircFinding.mk ["a", "b", "a"] "circular" (8/10) true).path.length :=
  ((circular_patterns_sound circGraph "A" 3).2
    ⟨["a", "b", "a"], "circular", 8/10, true⟩
    (by with_unfolding_all decide)).2.2.1

/-! ## Claim C3 -/

/-- C3 counterexample: a single transaction of one raw unit (normalized
amount 1e-18, far below the claimed 0.1 threshold) from the root produces
no dust-attack finding, because the implementation compares the raw value
against 0.1 without dividing by 1e18; under the claim the recipient 0xa
had to be flagged. -/
theorem dust_attack_normalization_cex :
    find_dust_attacks [⟨"0xr", "0xa", some (.num 1), 0, none, none⟩] "0xr" =
      .ok [] ∧
    ((1 : ℚ) / WEI < 1/10) :=
  ⟨by with_unfolding_all rfl, by with_unfolding_all decide⟩

/-- The pure counterpart of the grouping loop body, used on runs in which
every parsed value is numeric. -/
def outgoingStep (main : String) (m : List (String × List ℚ)) (tx : Tx) :
    List (String × List ℚ) :=
  if pyLower tx.from_ = main then
    addToGroup m (pyLower tx.to_) (pyFloatD tx.value)
  else m

theorem dustStepM_ok {main : String} {m : List (String × List ℚ)} {tx : Tx}
    {q : ℚ} (hm : pyLower tx.from_ = main) (hq : pyFloat tx.value = .ok q) :
    dustStepM main m tx = .ok (addToGroup m (pyLower tx.to_) q) := by
  unfold dustStepM
  rw [if_pos hm, hq]
  rfl

theorem dustStepM_skip {main : String} {m : List (String × List ℚ)} {tx : Tx}
    (hm : ¬ pyLower tx.from_ = main) : dustStepM main m tx = .ok m := by
  unfold dustStepM
  rw [if_neg hm]
  rfl

theorem dust_foldlM_ok (main : String) :
    ∀ (txs : List Tx) (m : List (String × List ℚ)),
      (∀ tx ∈ txs, pyLower tx.from_ = main → ∃ q, pyFloat tx.value = .ok q) →
      txs.foldlM (dustStepM main) m = .ok (txs.foldl (outgoingStep main) m) := by
  intro txs
  induction txs with
  | nil => intro m _; rfl
  | cons tx txs ih =>
    intro m hp
    rw [List.foldlM_cons, List.foldl_cons]
    by_cases hm : pyLower tx.from_ = main
    · obtain ⟨q, hq⟩ := hp tx (List.mem_cons_self _ _) hm
      have hstep : outgoingStep main m tx = addToGroup m (pyLower tx.to_) q := by
        unfold outgoingStep
        rw [if_pos hm]
        congr 1
        unfold pyFloatD
        rw [hq]
        rfl
      rw [dustStepM_ok hm hq, hstep]
      exact ih _ (fun t ht h => hp t (List.mem_cons_of_mem _ ht) h)
    · have hstep : outgoingStep main m tx = m := by
        unfold outgoingStep
        rw [if_neg hm]
      rw [dustStepM_skip hm, hstep]
      exact ih _ (fun t ht h => hp t (List.mem_cons_of_mem _ ht) h)

theorem groupLookup_addToGroup {α β : Type} [DecidableEq α]
    (m : List (α × List β)) (k k0 : α) (b : β) :
    groupLookup (addToGroup m k b) k0 =
      groupLookup m k0 ++ (if k = k0 then [b] else []) := by
  induction m with
  | nil =>
    simp only [addToGroup, groupLookup]
    by_cases h : k = k0
    · rw [if_pos h]
      rfl
    · rw [if_neg h]
      rfl
  | cons p rest ih =>
    obtain ⟨k', bs⟩ := p
    simp only [addToGroup]
    by_cases h1 : k' = k
    · rw [if_pos h1]
      simp only [groupLookup]
      by_cases h2 : k' = k0
      · rw [if_pos h2, if_pos h2, if_pos (h1.symm.trans h2)]
      · rw [if_neg h2, if_neg h2, if_neg (fun hk => h2 (h1.trans hk))]
        rw [List.append_nil]
    · rw [if_neg h1]
      simp only [groupLookup]
      by_cases h2 : k' = k0
      · rw [if_pos h2, if_pos h2, if_neg (fun hk => h1 (h2.trans hk.symm))]
        rw [List.append_nil]
      · rw [if_neg h2, if_neg h2]
        exact ih

theorem groupLookup_foldl (main : String) :
    ∀ (txs : List Tx) (m : List (String × List ℚ)) (k : String),
      groupLookup (txs.foldl (outgoingStep main) m) k =
        groupLookup m k ++
          ((txs.filter (fun tx =>
              decide (pyLower tx.from_ = main ∧ pyLower tx.to_ = k))).map
            (fun tx => pyFloatD tx.value)) := by
  intro txs
  induction txs with
  | nil => intro m k; simp
  | cons tx txs ih =>
    intro m k
    rw [List.foldl_cons, ih]
    by_cases hm : pyLower tx.from_ = main
    · have hstep : outgoingStep main m tx =
          addToGroup m (pyLower tx.to_) (pyFloatD tx.value) := by
        unfold outgoingStep
        rw [if_pos hm]
      by_cases hk : pyLower tx.to_ = k
      · rw [hstep, groupLookup_addToGroup, if_pos hk,
            List.filter_cons_of_pos (by simp [hm, hk]), List.map_cons,
            List.append_assoc]
        rfl
      · rw [hstep, groupLookup_addToGroup, if_neg hk, List.append_nil,
            List.filter_cons_of_neg (by simp [hm, hk])]
    · have hstep : outgoingStep main m tx = m := by
        unfold outgoingStep
        rw [if_neg hm]
      rw [hstep, List.filter_cons_of_neg (by simp [hm])]

theorem groupLookup_mem {α β : Type} [DecidableEq α] :
    ∀ (m : List (α × List β)) (k : α),
      groupLookup m k ≠ [] → (k, groupLookup m k) ∈ m := by
  intro m
  induction m with
  | nil => intro k h; exact absurd rfl h
  | cons p rest ih =>
    intro k h
    obtain ⟨k', bs⟩ := p
    simp only [groupLookup] at h ⊢
    by_cases hk : k' = k
    · rw [if_pos hk]
      subst hk
      exact List.mem_cons_self _ _
    · rw [if_neg hk] at h ⊢
      exact List.mem_cons_of_mem _ (ih k h)

theorem addToGroup_pres {α β : Type} [DecidableEq α] {Q : α → β → Prop} :
    ∀ (m : List (α × List β)) (k : α) (b : β),
      (∀ p ∈ m, ∀ x ∈ p.2, Q p.1 x) → Q k b →
      ∀ p ∈ addToGroup m k b, ∀ x ∈ p.2, Q p.1 x := by
  intro m
  induction m with
  | nil =>
    intro k b _ hq p hp x hx
    rw [show addToGroup ([] : List (α × List β)) k b = [(k, [b])] from rfl,
        List.mem_singleton] at hp
    subst hp
    rw [List.mem_singleton] at hx
    subst hx
    exact hq
  | cons r rest ih =>
    intro k b hm hq p hp x hx
    obtain ⟨k', bs⟩ := r
    simp only [addToGroup] at hp
    by_cases h1 : k' = k
    · rw [if_pos h1, List.mem_cons] at hp
      cases hp with
      | inl hp =>
        subst hp
        rw [List.mem_append] at hx
        cases hx with
        | inl hx => exact hm (k', bs) (List.mem_cons_self _ _) x hx
        | inr hx =>
          rw [List.mem_singleton] at hx
          subst hx
          exact h1 ▸ hq
      | inr hp => exact hm p (List.mem_cons_of_mem _ hp) x hx
    · rw [if_neg h1, List.mem_cons] at hp
      cases hp with
      | inl hp =>
        subst hp
        exact hm (k', bs) (List.mem_cons_self _ _) x hx
      | inr hp =>
        exact ih k b (fun r hr => hm r (List.mem_cons_of_mem _ hr)) hq p hp x hx

theorem dust_src_foldl (main : String) (Q : String → ℚ → Prop) :
    ∀ (txs : List Tx) (m : List (String × List ℚ)),
      (∀ p ∈ m, ∀ amt ∈ p.2, Q p.1 amt) →
      (∀ tx ∈ txs, pyLower tx.from_ = main →
        Q (pyLower tx.to_) (pyFloatD tx.value)) →
      ∀ p ∈ txs.foldl (outgoingStep main) m, ∀ amt ∈ p.2, Q p.1 amt := by
  intro txs
  induction txs with
  | nil => intro m hm _; exact hm
  | cons tx txs ih =>
    intro m hm htxs
    rw [List.foldl_cons]
    refine ih _ ?_ (fun t ht h => htxs t (List.mem_cons_of_mem _ ht) h)
    by_cases hf : pyLower tx.from_ = main
    · have hstep : outgoingStep main m tx =
          addToGroup m (pyLower tx.to_) (pyFloatD tx.value) := by
        unfold outgoingStep
        rw [if_pos hf]
      rw [hstep]
      exact addToGroup_pres m _ _ hm (htxs tx (List.mem_cons_self _ _) hf)
    · have hstep : outgoingStep main m tx = m := by
        unfold outgoingStep
        rw [if_neg hf]
      rw [hstep]
      exact hm

/-- A recipient address qualifies for a dust-attack flag: some transaction
from the main address (case-insensitive) to this address carries a parsed
raw value below 0.1. -/
def dustQualifies (transactions : List Tx) (main_address : String)
    (addr : String) : Prop :=
  ∃ tx ∈ transactions, pyLower tx.from_ = pyLower main_address ∧
    pyLower tx.to_ = addr ∧ ∃ q, pyFloat tx.value = .ok q ∧ q < 1/10

/-- C3 as amended: when every value sent by the main address parses, the
dust-attack sub-analysis returns normally a list of at most 20 findings;
every finding carries pattern dust_attack, risk 0.7 and is_suspicious
true, and names a recipient of a transaction from the root whose raw
(undivided) amount is below 0.1; and, as long as the 20-finding cap is
not reached, every such recipient is flagged. -/
theorem dust_attacks_raw_threshold (transactions : List Tx)
    (main_address : String)
    (hparse : ∀ tx ∈ transactions, pyLower tx.from_ = pyLower main_address →
      ∃ q, pyFloat tx.value = .ok q) :
    ∃ l, find_dust_attacks transactions main_address = .ok l ∧
      l.length ≤ 20 ∧
      (∀ f ∈ l, f.pattern = "dust_attack" ∧ f.risk_score = 7/10 ∧
        f.is_suspicious = true ∧
        dustQualifies transactions main_address f.address) ∧
      (l.length < 20 → ∀ addr, dustQualifies transactions main_address addr →
        ∃ f ∈ l, f.address = addr) := by
  refine ⟨((((transactions.foldl (outgoingStep (pyLower main_address)) []).filter
      (fun p => p.2.any (fun amt => decide (amt < 1/10)))).map
        (fun p => p.1)).take 20).map
      (fun addr =>
        { address := addr, pattern := "dust_attack", risk_score := 7/10,
          is_suspicious := true }), ?_, ?_, ?_, ?_⟩
  · show (do
      let outgoing ← transactions.foldlM (dustStepM (pyLower main_address)) []
      let dust_recipients :=
        (outgoing.filter
          (fun (p : String × List ℚ) =>
            p.2.any (fun amt => decide (amt < 1/10)))).map
          (fun (p : String × List ℚ) => p.1)
      pure ((dust_recipients.take 20).map (fun addr =>
        ({ address := addr, pattern := "dust_attack", risk_score := 7/10,
           is_suspicious := true } : DustFinding)))) = _
    rw [dust_foldlM_ok (pyLower main_address) transactions [] hparse]
    rfl
  · rw [List.length_map]
    exact List.length_take_le 20 _
  · intro f hf
    rw [List.mem_map] at hf
    obtain ⟨addr, haddr, rfl⟩ := hf
    refine ⟨rfl, rfl, rfl, ?_⟩
    have haddr2 := List.mem_of_mem_take haddr
    rw [List.mem_map] at haddr2
    obtain ⟨p, hp, rfl⟩ := haddr2
    rw [List.mem_filter] at hp
    obtain ⟨hpM, hpred⟩ := hp
    rw [List.any_eq_true] at hpred
    obtain ⟨amt, hamt, hlt⟩ := hpred
    have hlt2 : amt < 1/10 := of_decide_eq_true hlt
    have hsrc := dust_src_foldl (pyLower main_address)
      (fun k a => ∃ tx ∈ transactions,
        pyLower tx.from_ = pyLower main_address ∧ pyLower tx.to_ = k ∧
        pyFloatD tx.value = a)
      transactions []
      (by intro p hp; exact absurd hp (List.not_mem_nil p))
      (fun tx ht hm => ⟨tx, ht, hm, rfl, rfl⟩)
      p hpM amt hamt
    obtain ⟨tx, htx, hm, hto, hval⟩ := hsrc
    obtain ⟨q, hq⟩ := hparse tx htx hm
    have hqamt : q = amt := by
      rw [← hval]
      unfold pyFloatD
      rw [hq]
      rfl
    exact ⟨tx, htx, hm, hto, q, hq, hqamt ▸ hlt2⟩
  · intro hlen addr hqual
    obtain ⟨tx, htx, hfrom, hto, q, hq, hqlt⟩ := hqual
    have hlk := groupLookup_foldl (pyLower main_address) transactions [] addr
    rw [show groupLookup ([] : List (String × List ℚ)) addr = [] from rfl,
        List.nil_append] at hlk
    have hqmem : q ∈ groupLookup
        (transactions.foldl (outgoingStep (pyLower main_address)) []) addr := by
      rw [hlk, List.mem_map]
      refine ⟨tx, ?_, ?_⟩
      · rw [List.mem_filter]
        exact ⟨htx, by simp [hfrom, hto]⟩
      · unfold pyFloatD
        rw [hq]
        rfl
    have hpair := groupLookup_mem
      (transactions.foldl (outgoingStep (pyLower main_address)) []) addr
      (List.ne_nil_of_mem hqmem)
    have hfilt : (addr, groupLookup
        (transactions.foldl (outgoingStep (pyLower main_address)) []) addr) ∈
        (transactions.foldl (outgoingStep (pyLower main_address)) []).filter
          (fun p => p.2.any (fun amt => decide (amt < 1/10))) := by
      rw [List.mem_filter]
      refine ⟨hpair, ?_⟩
      rw [List.any_eq_true]
      exact ⟨q, hqmem, decide_eq_true hqlt⟩
    have haddr : addr ∈ ((transactions.foldl (outgoingStep (pyLower main_address))
        []).filter (fun p => p.2.any (fun amt => decide (amt < 1/10)))).map
          (fun p => p.1) :=
      List.mem_map.mpr ⟨_, hfilt, rfl⟩
    rw [List.length_map, List.length_take] at hlen
    have htake := List.take_of_length_le
      (le_of_lt (by omega :
        (((transactions.foldl (outgoingStep (pyLower main_address)) []).filter
          (fun p => p.2.any (fun amt => decide (amt < 1/10)))).map
            (fun p => p.1)).length < 20))
    refine ⟨{ address := addr, pattern := "dust_attack", risk_score := 7/10,
              is_suspicious := true }, ?_, rfl⟩
    rw [List.mem_map]
    refine ⟨addr, ?_, rfl⟩
    rw [htake]
    exact haddr

def w3txs : List Tx := [⟨"0xR", "0xA", some (.num (1/20)), 0, none, none⟩]

/-- Witness for the amended C3: one transaction of raw amount 0.05 from
the root; its recipient is flagged. -/
theorem dust_attacks_raw_threshold_witness :
    ∃ l, find_dust_attacks w3txs "0xr" = .ok l ∧
      l.length ≤ 20 ∧
      (∀ f ∈ l, f.pattern = "dust_attack" ∧ f.risk_score = 7/10 ∧
        f.is_suspicious = true ∧ dustQualifies w3txs "0xr" f.address) ∧
      (l.length < 20 → ∀ addr, dustQualifies w3txs "0xr" addr →
        ∃ f ∈ l, f.address = addr) :=
  dust_attacks_raw_threshold w3txs "0xr"
    (fun tx htx _ => by
      simp only [w3txs, List.mem_singleton] at htx
      subst htx
      exact ⟨1/20, rfl⟩)

end OpenChainIR
